import Mathlib

/-!
Verification of the FlashString library's core: the tagged-handle resolution
scheme (`FSTR::ObjectBase`), the byte-granular read backends, the typed
sequence wrapper (`FSTR::Object`), the compile-time typed-read dispatch
(`FSTR::readValue`), and the legacy `FlashString` struct.

Machine integers are modelled as `Nat` with explicit reduction modulo `2^32`
where 32-bit overflow matters.  Memory is modelled as an environment giving,
for every address, the `flashLength_` field of the handle stored there and the
byte content of the read-only region.  The debug-build `assert` is modelled as
`Option`: `none` is an abort.
-/

namespace FSTR

/-- The tag bit stolen from the length field: C++ `copyBit = 0x80000000`. -/
def copyBit : Nat := 2 ^ 31

/-- Wrap-around bound of the 32-bit unsigned field. -/
def U32 : Nat := 2 ^ 32

/-- Modelled from the spec: `ObjectBase::isCopy()` is defined in the missing
header `ObjectBase.hpp`; per §4.1 it is true iff the instance carries the
redirect tag, i.e. the `copyBit` of the stored field is set. -/
def isCopyVal (fl : Nat) : Bool := fl &&& copyBit != 0

/-- The `count` bytes of memory `m` starting at address `a` (each byte taken
modulo 256), i.e. the content a `memcpy`-style primitive would deposit in the
destination buffer. -/
def readBytes (m : Nat → Nat) (a count : Nat) : List Nat :=
  (List.range count).map fun i => m (a + i) % 256

/-- Build configuration distinguishing the three compile-time variants of
`ObjectBase::getObjectPtr`: `ARCH_HOST` (no pointer check), debug (failing
`assert` aborts) and release (`NDEBUG`: the check falls back silently). -/
inductive BuildMode where
  | host
  | debug
  | release
deriving DecidableEq

/-- Memory environment: `fields a` is the 32-bit `flashLength_` field of the
handle at address `a`; `bytes` is the cache-mapped read-only memory seen by
`memcpy_P`; `devBytes` is the device (flash) memory seen by `flashmem_read`;
`translate` is `flashmem_get_address`; `emptyAddr` is the address of the
process-wide `ObjectBase::empty_` singleton; `isFlashPtr` is the read-only
region sanity check. -/
structure Env where
  fields : Nat → Nat
  bytes : Nat → Nat
  devBytes : Nat → Nat
  translate : Nat → Nat
  emptyAddr : Nat
  isFlashPtr : Nat → Bool

namespace ObjectBase

/-- Modelled from the spec: `ObjectBase::getObjectLength(ptr)` lives in the
missing header `ObjectBase.hpp`; per §3, for a resolved (tag-clear) handle the
stored field is the exact byte count of the trailing data. -/
def getObjectLength (env : Env) (ptr : Nat) : Nat := env.fields ptr

/-- Modelled from the spec: `ObjectBase::getObjectData(ptr)` lives in the
missing header `ObjectBase.hpp`; per §4.1 `data()` is the address of the
length field plus the size of that field (4 bytes). -/
def getObjectData (_env : Env) (ptr : Nat) : Nat := ptr + 4

/-- Translation of `ObjectBase::getObjectPtr` (ObjectBase.cpp): if `isCopy()`,
reinterpret the field with the tag bit masked out (`flashLength_ & ~copyBit`,
and `~copyBit` is `copyBit - 1` in 32 bits) as the address of the referenced
handle; else if the field is zero, the empty singleton; otherwise the handle
itself, guarded on non-host builds by the `isFlashPtr` sanity check: the debug
`assert` aborts (`none`) and release falls back to the empty singleton. -/
def getObjectPtr (env : Env) (mode : BuildMode) (self : Nat) : Option Nat :=
  let fl := env.fields self
  if isCopyVal fl then
    some (fl &&& (copyBit - 1))
  else if fl = 0 then
    some env.emptyAddr
  else
    match mode with
    | .host => some self
    | .debug => if env.isFlashPtr self then some self else none
    | .release => if env.isFlashPtr self then some self else some env.emptyAddr

/-- Modelled from the spec: `ObjectBase::isCopy()` of the handle stored at
address `a` (missing header `ObjectBase.hpp`). -/
def isCopy (env : Env) (a : Nat) : Bool := isCopyVal (env.fields a)

/-- Modelled from the spec: `ObjectBase::length()` (missing header
`ObjectBase.hpp`) returns the resolved handle's byte count (§4.1). -/
def length (env : Env) (mode : BuildMode) (self : Nat) : Option Nat :=
  (getObjectPtr env mode self).map (getObjectLength env)

/-- Modelled from the spec: `ObjectBase::data()` (missing header
`ObjectBase.hpp`) is the first data byte of the resolved handle (§4.1). -/
def data (env : Env) (mode : BuildMode) (self : Nat) : Option Nat :=
  (getObjectPtr env mode self).map (getObjectData env)

/-- Modelled from the spec: the external device-read primitive
`flashmem_read(buffer, addr, count)` (§6) reads `count` bytes of device memory
starting at `addr` into the buffer and returns the number of bytes read. -/
def flashmem_read (env : Env) (addr count : Nat) : Nat × List Nat :=
  (count, readBytes env.devBytes addr count)

/-- Modelled from the spec: the external address translation
`flashmem_get_address` (§6) maps a cache-mapped address to a device address. -/
def flashmem_get_address (env : Env) (a : Nat) : Nat := env.translate a

/-- Body of `ObjectBase::readFlash` (ObjectBase.cpp) once the handle has been
resolved to `ptr`: return 0 when `offset >= len`, otherwise clamp the count to
`min(len - offset, count)` and read through the device backend at the
translated data address. -/
def readFlashAt (env : Env) (ptr offset count : Nat) : Nat × List Nat :=
  let len := getObjectLength env ptr
  if offset ≥ len then
    (0, [])
  else
    let c := min (len - offset) count
    flashmem_read env (flashmem_get_address env (getObjectData env ptr + offset)) c

/-- Translation of `ObjectBase::readFlash` (ObjectBase.cpp): resolve the
handle first, then read via the direct/device backend. -/
def readFlash (env : Env) (mode : BuildMode) (self offset count : Nat) :
    Option (Nat × List Nat) :=
  (getObjectPtr env mode self).map fun ptr => readFlashAt env ptr offset count

/-- Modelled from the spec: body of the cached-backend `ObjectBase::read`
(missing header `ObjectBase.hpp`) on the resolved handle `ptr`: same clamping
contract as `readFlashAt`, copying via the cache-mapped memory (§4.1). -/
def readAt (env : Env) (ptr offset count : Nat) : Nat × List Nat :=
  let len := getObjectLength env ptr
  if offset ≥ len then
    (0, [])
  else
    let c := min (len - offset) count
    (c, readBytes env.bytes (getObjectData env ptr + offset) c)

/-- Modelled from the spec: `ObjectBase::read` (missing header
`ObjectBase.hpp`): resolve the handle, then copy via the cached backend. -/
def read (env : Env) (mode : BuildMode) (self offset count : Nat) :
    Option (Nat × List Nat) :=
  (getObjectPtr env mode self).map fun ptr => readAt env ptr offset count

/-- Modelled from the spec: the copy constructor (`ObjectBase::copy`, missing
header `ObjectBase.hpp`) sets the tag bit and stores the address of the source
handle as the payload of the 32-bit field; it does not duplicate the trailing
bytes (§3 lifecycle). -/
def copy (srcAddr : Nat) : Nat := (srcAddr ||| copyBit) % U32

/-- The resolved data content of the handle at `a`: the `length()` bytes
starting at the resolved `data()` address, read via the cached memory. -/
def dataContent (env : Env) (mode : BuildMode) (a : Nat) : Option (List Nat) :=
  (getObjectPtr env mode a).map fun p =>
    readBytes env.bytes (getObjectData env p) (getObjectLength env p)

end ObjectBase

/-- Modelled from the spec: the `ALIGNUP` macro is not among the given source
files (it comes from the framework headers); it rounds its argument up to the
next multiple of 4 in 32-bit unsigned arithmetic, `((n + 3) & ~3)`.  On an
argument already below `2^32` the mask `& ~3` clears the two low bits, i.e.
rounds down to a multiple of 4, so it is written here as `/ 4 * 4`. -/
def ALIGNUP (n : Nat) : Nat := (n + 3) % U32 / 4 * 4

/-- Modelled from the spec: the `IS_ALIGNED` macro used by the `readValue`
dispatch is defined in the missing `config.hpp`; per §4.4 it accepts exactly
the sizes satisfying the backend's natural aligned-access width, i.e. the
multiples of the 4-byte word. -/
def IS_ALIGNED (n : Nat) : Bool := n % 4 == 0

/-- The three access strategies of the typed-read dispatch (§4.4). -/
inductive ReadStrategy where
  | byteRead
  | halfWordRead
  | directDeref
deriving DecidableEq

/-- Compile-time overload selection of `FSTR::readValue` (Utility.hpp): the
`enable_if` guards select the byte-load overload for `sizeof(T) == 1`, the
half-word overload for `sizeof(T) == 2`, the direct-dereference overload when
`IS_ALIGNED(sizeof(T))`, and no overload otherwise (a build error). -/
def readValueStrategy (s : Nat) : Option ReadStrategy :=
  if s = 1 then some ReadStrategy.byteRead
  else if s = 2 then some ReadStrategy.halfWordRead
  else if IS_ALIGNED s then some ReadStrategy.directDeref
  else none

/-- Little-endian assembly of `n` bytes of memory `m` starting at `a`: the
value a direct `n`-byte load at `a` yields. -/
def assembleLE (m : Nat → Nat) (a : Nat) : Nat → Nat
  | 0 => 0
  | n + 1 => m a % 256 + 256 * assembleLE m (a + 1) n

/-- The platform byte-load primitive `pgm_read_byte`. -/
def pgm_read_byte (m : Nat → Nat) (a : Nat) : Nat := m a % 256

/-- The platform half-word-load primitive `pgm_read_word`. -/
def pgm_read_word (m : Nat → Nat) (a : Nat) : Nat := assembleLE m a 2

/-- Translation of `FSTR::readValue` (Utility.hpp) for an element of size `s`
at byte offset `a` of memory `m`: the overload chosen by `readValueStrategy`,
or `none` when no overload exists (the build-time constraint violation). -/
def readValue (m : Nat → Nat) (s a : Nat) : Option Nat :=
  match readValueStrategy s with
  | some ReadStrategy.byteRead => some (pgm_read_byte m a)
  | some ReadStrategy.halfWordRead => some (pgm_read_word m a)
  | some ReadStrategy.directDeref => some (assembleLE m a s)
  | none => none

/-- The typed sequence `FSTR::Object<ObjectType, ElementType>` (Object.hpp),
viewed over its resolved handle.  `ObjectBase.hpp` is not among the given
source files, so the wrapped `ObjectBase` is carried in its spec form (§4.1):
`len` is the resolved byte count `ObjectBase::length()` and `byteAt` the byte
content of the resolved data.  `elemSize` is `sizeof(ElementType)` and `id`
the identity of this instance (the C++ object address), which iterators
reference. -/
structure Object where
  id : Nat
  len : Nat
  byteAt : Nat → Nat
  elemSize : Nat

namespace Object

/-- Modelled from the spec: the byte-granular `ObjectBase::length()` of the
wrapped handle (§4.1). -/
def baseLength (o : Object) : Nat := o.len

/-- Modelled from the spec: the byte-granular cached `ObjectBase::read` of the
wrapped handle (§4.1): 0 when `offset >= length()`, else a copy of
`min(length() - offset, count)` bytes from byte `offset` of the data. -/
def baseRead (o : Object) (offset count : Nat) : Nat × List Nat :=
  if offset ≥ o.baseLength then
    (0, [])
  else
    let c := min (o.baseLength - offset) count
    (c, readBytes o.byteAt offset c)

/-- Translation of `Object::length` (Object.hpp): `ObjectBase::length() /
sizeof(ElementType)`. -/
def length (o : Object) : Nat := o.baseLength / o.elemSize

/-- Translation of `Object::valueAt` (Object.hpp): `readValue(data() + index)`
when `index < length()`, else the zero-initialized element.  Pointer
arithmetic on `ElementType*` advances `index * sizeof(ElementType)` bytes. -/
def valueAt (o : Object) (index : Nat) : Nat :=
  if index < o.length then
    (readValue o.byteAt o.elemSize (index * o.elemSize)).getD 0
  else
    0

/-- Translation of `Object::operator[]` (Object.hpp): returns `valueAt`. -/
def opIndex (o : Object) (index : Nat) : Nat := o.valueAt index

/-- Translation of `Object::elementSize` (Object.hpp). -/
def elementSize (o : Object) : Nat := o.elemSize

/-- Translation of the loop body of `Object::indexOf` (Object.hpp): scan `i`
upward while `i < length()`, returning the first index whose element compares
equal to `value`, else `-1`. -/
def indexOfLoop (o : Object) (value : Nat) (i : Nat) : Int :=
  if i < o.length then
    if o.valueAt i = value then (i : Int)
    else o.indexOfLoop value (i + 1)
  else
    -1
termination_by o.length - i

/-- Translation of `Object::indexOf` (Object.hpp): linear scan from 0. -/
def indexOf (o : Object) (value : Nat) : Int := o.indexOfLoop value 0

/-- Translation of `Object::read` (Object.hpp): delegate to the handle's
byte-granular read with offset and count scaled by the element size, then
scale the returned byte count back to elements. -/
def read (o : Object) (index count : Nat) : Nat × List Nat :=
  let r := o.baseRead (index * o.elemSize) (count * o.elemSize)
  (r.1 / o.elemSize, r.2)

end Object

/-- Modelled from the spec: the iterator type of `ObjectIterator.hpp` (not
among the given source files); per §3 an iterator is an (owning sequence
reference, integer position) pair, the sequence reference modelled by the
identity of the referenced `Object`. -/
structure ObjectIterator where
  seqId : Nat
  pos : Nat

/-- Modelled from the spec: iterator `operator==` (missing
`ObjectIterator.hpp`); two iterators compare equal iff they reference the same
sequence and the same position (§3). -/
def ObjectIterator.eq (a b : ObjectIterator) : Bool :=
  a.seqId == b.seqId && a.pos == b.pos

/-- Translation of `Object::begin` (Object.hpp): an iterator referencing this
sequence at position 0. -/
def Object.begin (o : Object) : ObjectIterator := ⟨o.id, 0⟩

/-- Translation of `Object::end` (Object.hpp): an iterator referencing this
sequence at position `length()`. -/
def Object.end_ (o : Object) : ObjectIterator := ⟨o.id, o.length⟩

end FSTR

namespace FlashString

/-- Translation of `FlashString::read` (FlashString.h): return 0 when
`offset >= flashLength`; otherwise copy `min(flashLength - offset,
bytesToRead)` bytes via `memcpy_P` from `data() + offset`, where `data()` is
the address of the `flashLength` field plus 4 (`&flashLength + 1`), and return
that count.  `self` is the address of the struct, whose `flashLength` field is
`env.fields self`. -/
def read (env : FSTR.Env) (self offset bytesToRead : Nat) : Nat × List Nat :=
  let fl := env.fields self
  if offset ≥ fl then
    (0, [])
  else
    let count := min (fl - offset) bytesToRead
    (count, FSTR.readBytes env.bytes (self + 4 + offset) count)

/-- Translation of `FlashString::length` (FlashString.h): the `flashLength`
field. -/
def length (env : FSTR.Env) (self : Nat) : Nat := env.fields self

/-- Translation of `FlashString::size` (FlashString.h) as a function of the
32-bit `flashLength` field value: `ALIGNUP(flashLength + 1)` in 32-bit
unsigned arithmetic. -/
def size (fl : Nat) : Nat := FSTR.ALIGNUP ((fl + 1) % FSTR.U32)

end FlashString

namespace FSTR

/-- Tagging an address and masking the tag back out round-trips for any
address below the tag bit. -/
theorem copy_mask (a : Nat) (ha : a < copyBit) :
    ObjectBase.copy a &&& (copyBit - 1) = a := by
  unfold ObjectBase.copy copyBit U32 at *
  rw [Nat.and_pow_two_sub_one_eq_mod,
    Nat.mod_mod_of_dvd _ (Nat.pow_dvd_pow 2 (by omega))]
  apply Nat.eq_of_testBit_eq
  intro i
  rw [Nat.testBit_mod_two_pow, Nat.testBit_or, Nat.testBit_two_pow]
  by_cases hi : i < 31
  · simp [hi, Nat.ne_of_gt hi]
  · have hfalse : a.testBit i = false :=
      Nat.testBit_lt_two_pow
        (lt_of_lt_of_le ha (Nat.pow_le_pow_right (by omega) (by omega)))
    simp [hi, hfalse]

/-- A handle written by the copy constructor carries the redirect tag. -/
theorem copy_isCopy (a : Nat) : isCopyVal (ObjectBase.copy a) = true := by
  unfold isCopyVal ObjectBase.copy copyBit U32
  have hbit : ((a ||| 2 ^ 31) % 2 ^ 32 &&& 2 ^ 31).testBit 31 = true := by
    rw [Nat.testBit_and, Nat.testBit_mod_two_pow, Nat.testBit_or,
      Nat.testBit_two_pow]
    simp
  rw [bne_iff_ne]
  intro h0
  rw [h0] at hbit
  simp at hbit

/-- Concrete environment for witnesses of the resolution claims: the handle
at address 200 is a copy-tagged redirect to the canonical 3-byte handle at
address 64, the handle at address 300 is corrupt (non-copy, non-zero length)
and `isFlashPtr` recognizes only addresses 64 and 200. -/
def envA : Env where
  fields := fun a =>
    if a = 64 then 3 else if a = 200 then 2147483712 else if a = 300 then 12 else 0
  bytes := fun a => a % 256
  devBytes := fun a => a % 256
  translate := fun a => a
  emptyAddr := 0
  isFlashPtr := fun a => a = 64 || a = 200

/-- C1: handle resolution is a three-way case split: a copy-tagged handle
resolves to the address stored in its field with the tag bit masked out; a
non-copy handle with zero length field resolves to the process-wide empty
singleton; otherwise the handle resolves to itself (on host builds
unconditionally, elsewhere when it passes the read-only-region check); and
every length/data/read operation acts on the resolved handle. -/
theorem getObjectPtr_spec (env : Env) (mode : BuildMode) (h : Nat) :
    (isCopyVal (env.fields h) = true →
      ObjectBase.getObjectPtr env mode h = some (env.fields h &&& (copyBit - 1)))
    ∧ (isCopyVal (env.fields h) = false → env.fields h = 0 →
      ObjectBase.getObjectPtr env mode h = some env.emptyAddr)
    ∧ (isCopyVal (env.fields h) = false → env.fields h ≠ 0 →
      (mode = BuildMode.host ∨ env.isFlashPtr h = true) →
      ObjectBase.getObjectPtr env mode h = some h)
    ∧ ObjectBase.length env mode h
        = (ObjectBase.getObjectPtr env mode h).map (ObjectBase.getObjectLength env)
    ∧ ObjectBase.data env mode h
        = (ObjectBase.getObjectPtr env mode h).map (ObjectBase.getObjectData env)
    ∧ (∀ offset count, ObjectBase.read env mode h offset count
        = (ObjectBase.getObjectPtr env mode h).map
            fun p => ObjectBase.readAt env p offset count)
    ∧ (∀ offset count, ObjectBase.readFlash env mode h offset count
        = (ObjectBase.getObjectPtr env mode h).map
            fun p => ObjectBase.readFlashAt env p offset count) := by
  refine ⟨?_, ?_, ?_, rfl, rfl, fun _ _ => rfl, fun _ _ => rfl⟩
  · intro hc
    unfold ObjectBase.getObjectPtr
    simp [hc]
  · intro hc h0
    unfold ObjectBase.getObjectPtr
    simp [h0, isCopyVal]
  · intro hc h0 hm
    unfold ObjectBase.getObjectPtr
    rcases hm with rfl | hf
    · simp [hc, h0]
    · cases mode <;> simp [hc, h0, hf]

/-- C4 counterexample: the handle at address 300 of `envA` is corrupt (it is
not a copy, its length field is non-zero, and it fails the read-only-region
check); the release build performs the check and falls back to the empty
singleton instead of trusting the tag and returning the handle itself, while
the debug build aborts at the `assert` rather than falling back. -/
theorem resolution_fallback_counterexample :
    isCopyVal (envA.fields 300) = false
    ∧ envA.fields 300 ≠ 0
    ∧ envA.isFlashPtr 300 = false
    ∧ ObjectBase.getObjectPtr envA BuildMode.release 300 = some envA.emptyAddr
    ∧ ObjectBase.getObjectPtr envA BuildMode.release 300 ≠ some 300
    ∧ ObjectBase.getObjectPtr envA BuildMode.debug 300 = none := by
  exact ⟨by decide, by decide, by decide, by decide, by decide, by decide⟩

/-- C4 amended: on a corrupt tag state (a non-copy, non-zero-length handle
whose own address fails the read-only-region check), the release build falls
back to the empty singleton rather than dereferencing the unverified address,
the debug build aborts at the `assert` before any fallback, and the
`ARCH_HOST` build skips the check entirely and trusts the tag. -/
theorem resolution_fallback_amended (env : Env) (h : Nat)
    (hc : isCopyVal (env.fields h) = false) (h0 : env.fields h ≠ 0)
    (hf : env.isFlashPtr h = false) :
    ObjectBase.getObjectPtr env BuildMode.release h = some env.emptyAddr
    ∧ ObjectBase.getObjectPtr env BuildMode.debug h = none
    ∧ ObjectBase.getObjectPtr env BuildMode.host h = some h := by
  unfold ObjectBase.getObjectPtr
  simp [hc, h0, hf]

/-- C2: copying a canonical handle `H` (stored at `hA`) into `H2` (stored at
`h2A`) preserves the observable behaviour without duplicating data: the two
resolve to the same length and to byte-identical data content, `H2` carries
the copy tag while `H` does not, and `H2`'s field holds only the tagged
address of `H`. -/
theorem copy_semantics (env : Env) (mode : BuildMode) (hA h2A : Nat)
    (hcanon : isCopyVal (env.fields hA) = false)
    (haddr : hA < copyBit)
    (hstore : env.fields h2A = ObjectBase.copy hA)
    (hempty : env.fields env.emptyAddr = 0)
    (hflash : env.isFlashPtr hA = true) :
    ObjectBase.length env mode h2A = ObjectBase.length env mode hA
    ∧ ObjectBase.dataContent env mode h2A = ObjectBase.dataContent env mode hA
    ∧ ObjectBase.isCopy env h2A = true
    ∧ ObjectBase.isCopy env hA = false
    ∧ env.fields h2A = (hA ||| copyBit) % U32 := by
  have hres2 : ObjectBase.getObjectPtr env mode h2A = some hA := by
    unfold ObjectBase.getObjectPtr
    simp [hstore, copy_isCopy, copy_mask hA haddr]
  refine ⟨?_, ?_, ?_, ?_, hstore⟩
  · by_cases h0 : env.fields hA = 0
    · have hres1 : ObjectBase.getObjectPtr env mode hA = some env.emptyAddr := by
        unfold ObjectBase.getObjectPtr
        simp [h0, isCopyVal]
      unfold ObjectBase.length ObjectBase.getObjectLength
      rw [hres1, hres2]
      simp [h0, hempty]
    · have hres1 : ObjectBase.getObjectPtr env mode hA = some hA := by
        unfold ObjectBase.getObjectPtr
        cases mode <;> simp [hcanon, h0, hflash]
      unfold ObjectBase.length
      rw [hres1, hres2]
  · by_cases h0 : env.fields hA = 0
    · have hres1 : ObjectBase.getObjectPtr env mode hA = some env.emptyAddr := by
        unfold ObjectBase.getObjectPtr
        simp [h0, isCopyVal]
      unfold ObjectBase.dataContent ObjectBase.getObjectLength
      rw [hres1, hres2]
      simp [h0, hempty, readBytes]
    · have hres1 : ObjectBase.getObjectPtr env mode hA = some hA := by
        unfold ObjectBase.getObjectPtr
        cases mode <;> simp [hcanon, h0, hflash]
      unfold ObjectBase.dataContent
      rw [hres1, hres2]
  · unfold ObjectBase.isCopy
    rw [hstore]
    exact copy_isCopy hA
  · exact hcanon

/-- Witness for C2 in `envA`: the handle at 200 was written by the copy
constructor from the canonical 3-byte handle at 64. -/
theorem copy_semantics_witness :
    envA.fields 200 = ObjectBase.copy 64
    ∧ (ObjectBase.length envA BuildMode.release 200
        = ObjectBase.length envA BuildMode.release 64
      ∧ ObjectBase.dataContent envA BuildMode.release 200
          = ObjectBase.dataContent envA BuildMode.release 64
      ∧ ObjectBase.isCopy envA 200 = true
      ∧ ObjectBase.isCopy envA 64 = false
      ∧ envA.fields 200 = (64 ||| copyBit) % U32) :=
  ⟨by decide,
   copy_semantics envA BuildMode.release 64 200 (by decide) (by decide)
     (by decide) (by decide) (by decide)⟩

/-- C3: the byte-granular read contract, for the cached backend
(`FlashString::read`) and the direct/device backend (`ObjectBase::readFlash`):
both return 0 and copy nothing when `offset >= length()`, and otherwise copy
exactly `min(length() - offset, count)` bytes starting at byte `offset` of the
stored data and return that count; in particular `read(0, buf, length())`
copies exactly the stored bytes.  For the device backend the copied bytes are
read from device memory at the translated address, and agree with the stored
data whenever the translation contract of §6 holds there. -/
theorem read_contract (env : Env) (mode : BuildMode) (self offset count : Nat) :
    (env.fields self ≤ offset → FlashString.read env self offset count = (0, []))
    ∧ (offset < env.fields self →
        FlashString.read env self offset count
          = (min (env.fields self - offset) count,
             readBytes env.bytes (self + 4 + offset)
               (min (env.fields self - offset) count)))
    ∧ FlashString.read env self 0 (env.fields self)
        = (env.fields self, readBytes env.bytes (self + 4) (env.fields self))
    ∧ (∀ p, ObjectBase.getObjectPtr env mode self = some p →
        (env.fields p ≤ offset →
          ObjectBase.readFlash env mode self offset count = some (0, []))
        ∧ (offset < env.fields p →
          ObjectBase.readFlash env mode self offset count
            = some (min (env.fields p - offset) count,
                readBytes env.devBytes (env.translate (p + 4 + offset))
                  (min (env.fields p - offset) count)))
        ∧ ((∀ i, env.devBytes (env.translate (p + 4 + offset) + i)
              = env.bytes (p + 4 + offset + i)) →
            readBytes env.devBytes (env.translate (p + 4 + offset))
                (min (env.fields p - offset) count)
              = readBytes env.bytes (p + 4 + offset)
                  (min (env.fields p - offset) count))) := by
  refine ⟨?_, ?_, ?_, ?_⟩
  · intro hle
    unfold FlashString.read
    simp [hle]
  · intro hlt
    unfold FlashString.read
    simp [Nat.not_le_of_lt hlt]
  · by_cases h0 : env.fields self = 0
    · unfold FlashString.read
      simp [h0, readBytes]
    · unfold FlashString.read
      simp [Nat.pos_of_ne_zero h0, Nat.not_le_of_lt (Nat.pos_of_ne_zero h0)]
  · intro p hp
    refine ⟨?_, ?_, ?_⟩
    · intro hle
      unfold ObjectBase.readFlash ObjectBase.readFlashAt
      rw [hp]
      simp [ObjectBase.getObjectLength, hle]
    · intro hlt
      unfold ObjectBase.readFlash ObjectBase.readFlashAt
        ObjectBase.flashmem_read ObjectBase.flashmem_get_address
        ObjectBase.getObjectData
      rw [hp]
      simp [ObjectBase.getObjectLength, Nat.not_le_of_lt hlt]
    · intro htrans
      unfold readBytes
      apply List.map_congr_left
      intro i _
      rw [htrans i]

/-- Concrete 5-element typed sequence of 4-byte elements `[10,20,30,40,50]`
(the worked example of §8), little-endian in the resolved data bytes. -/
def objA : Object where
  id := 1
  len := 20
  byteAt := fun i => if i % 4 = 0 then (i / 4 + 1) * 10 else 0
  elemSize := 4

/-- Whenever an overload of `readValue` exists for the element size, the value
it loads is the little-endian assembly of the element's bytes: all three
strategies read the same `s` bytes. -/
theorem readValue_eq_assemble (m : Nat → Nat) (s a : Nat)
    (hs : (readValueStrategy s).isSome = true) :
    readValue m s a = some (assembleLE m a s) := by
  unfold readValue readValueStrategy at *
  by_cases h1 : s = 1
  · subst h1
    simp [pgm_read_byte, assembleLE]
  · by_cases h2 : s = 2
    · subst h2
      simp [pgm_read_word]
    · by_cases h4 : IS_ALIGNED s
      · simp [h1, h2, h4]
      · simp [h1, h2, h4] at hs

/-- C5: for a typed sequence whose element size admits a `readValue` overload,
`valueAt(index)` returns the stored element (the assembly of its bytes) when
`index < length()`, and the zero-valued element when `index >= length()`; it
is a total function (never fails or throws) and `operator[]` is equivalent to
`valueAt` at every index. -/
theorem valueAt_spec (o : Object)
    (hs : (readValueStrategy o.elemSize).isSome = true) (index : Nat) :
    (index < o.length →
      o.valueAt index = assembleLE o.byteAt (index * o.elemSize) o.elemSize)
    ∧ (o.length ≤ index → o.valueAt index = 0)
    ∧ o.opIndex index = o.valueAt index := by
  refine ⟨?_, ?_, rfl⟩
  · intro hlt
    unfold Object.valueAt
    rw [if_pos hlt, readValue_eq_assemble o.byteAt o.elemSize _ hs]
    rfl
  · intro hge
    unfold Object.valueAt
    rw [if_neg (Nat.not_lt_of_le hge)]

/-- Witness for C5 at index 2 of the example sequence: the stored element. -/
theorem valueAt_spec_witness :
    (readValueStrategy objA.elemSize).isSome = true
    ∧ objA.valueAt 2 = assembleLE objA.byteAt (2 * objA.elemSize) objA.elemSize
    ∧ objA.valueAt 2 = 30 :=
  ⟨by decide, (valueAt_spec objA (by decide) 2).1 (by decide), by decide⟩

/-- C7: the typed-read dispatch is a pure function of the element type's
static size: size 1 selects the byte-load strategy through `pgm_read_byte`,
size 2 the half-word strategy through `pgm_read_word`, an `IS_ALIGNED` size
the direct dereference, and every other size has no overload at all (the
build-time constraint violation). -/
theorem readValue_dispatch (s : Nat) (m : Nat → Nat) (a : Nat) :
    (s = 1 → readValueStrategy s = some ReadStrategy.byteRead
      ∧ readValue m s a = some (pgm_read_byte m a))
    ∧ (s = 2 → readValueStrategy s = some ReadStrategy.halfWordRead
      ∧ readValue m s a = some (pgm_read_word m a))
    ∧ (s ≠ 1 → s ≠ 2 → IS_ALIGNED s = true →
      readValueStrategy s = some ReadStrategy.directDeref
      ∧ readValue m s a = some (assembleLE m a s))
    ∧ (s ≠ 1 → s ≠ 2 → IS_ALIGNED s = false →
      readValueStrategy s = none ∧ readValue m s a = none) := by
  refine ⟨?_, ?_, ?_, ?_⟩
  · intro h1
    subst h1
    exact ⟨rfl, rfl⟩
  · intro h2
    subst h2
    exact ⟨rfl, rfl⟩
  · intro h1 h2 h4
    have hstrat : readValueStrategy s = some ReadStrategy.directDeref := by
      unfold readValueStrategy
      simp [h1, h2, h4]
    refine ⟨hstrat, ?_⟩
    unfold readValue
    rw [hstrat]
  · intro h1 h2 h4
    have hstrat : readValueStrategy s = none := by
      unfold readValueStrategy
      simp [h1, h2, h4]
    refine ⟨hstrat, ?_⟩
    unfold readValue
    rw [hstrat]

/-- The scan loop of `indexOf` returns -1 when no index in `[i, length())`
holds the value. -/
theorem indexOfLoop_none (o : Object) (v : Nat) (i : Nat)
    (hnone : ∀ k, i ≤ k → k < o.length → o.valueAt k ≠ v) :
    o.indexOfLoop v i = -1 := by
  unfold Object.indexOfLoop
  split
  · next hi =>
    rw [if_neg (hnone i (Nat.le_refl i) hi)]
    exact indexOfLoop_none o v (i + 1) fun k hk hkl =>
      hnone k (Nat.le_of_succ_le hk) hkl
  · rfl
termination_by o.length - i

/-- The scan loop of `indexOf` returns the first matching index at or after
its starting point. -/
theorem indexOfLoop_found (o : Object) (v : Nat) (i j : Nat)
    (hij : i ≤ j) (hj : j < o.length) (hv : o.valueAt j = v)
    (hmin : ∀ k, i ≤ k → k < j → o.valueAt k ≠ v) :
    o.indexOfLoop v i = (j : Int) := by
  unfold Object.indexOfLoop
  rw [if_pos (Nat.lt_of_le_of_lt hij hj)]
  by_cases hiv : o.valueAt i = v
  · have hej : i = j := by
      by_contra hne
      exact hmin i (Nat.le_refl i) (Nat.lt_of_le_of_ne hij hne) hiv
    rw [if_pos hiv, hej]
  · rw [if_neg hiv]
    have hij2 : i + 1 ≤ j :=
      Nat.lt_of_le_of_ne hij fun he => hiv (he ▸ hv)
    exact indexOfLoop_found o v (i + 1) j hij2 hj hv fun k hk hkj =>
      hmin k (Nat.le_of_succ_le hk) hkj
termination_by j - i

/-- C8: `indexOf(value)` scans linearly from index 0: it returns -1 when no
element of the sequence equals the value, returns the smallest matching index
otherwise, and in particular returns -1 on an empty sequence for every
value. -/
theorem indexOf_spec (o : Object) (v : Nat) :
    ((∀ i, i < o.length → o.valueAt i ≠ v) → o.indexOf v = -1)
    ∧ (∀ j, j < o.length → o.valueAt j = v →
        (∀ k, k < j → o.valueAt k ≠ v) → o.indexOf v = (j : Int))
    ∧ (o.length = 0 → o.indexOf v = -1) := by
  refine ⟨?_, ?_, ?_⟩
  · intro hnone
    unfold Object.indexOf
    exact indexOfLoop_none o v 0 fun k _ hk => hnone k hk
  · intro j hj hv hmin
    unfold Object.indexOf
    exact indexOfLoop_found o v 0 j (Nat.zero_le j) hj hv fun k _ hk => hmin k hk
  · intro h0
    unfold Object.indexOf
    apply indexOfLoop_none
    intro k _ hk
    rw [h0] at hk
    exact absurd hk (Nat.not_lt_zero k)

/-- C6: the element-granular `Object::read` delegates to the handle's byte
read with offset and count scaled by the element size and divides the
returned byte count back; consequently it returns 0 when `index >= length()`,
and when `index < length() < index + count` it returns `length() - index`,
copying exactly those elements' bytes when the handle's byte length is a
whole number of elements. -/
theorem object_read_spec (o : Object) (hs : 0 < o.elemSize) (index count : Nat) :
    o.read index count
      = ((o.baseRead (index * o.elemSize) (count * o.elemSize)).1 / o.elemSize,
         (o.baseRead (index * o.elemSize) (count * o.elemSize)).2)
    ∧ (o.length ≤ index → (o.read index count).1 = 0)
    ∧ (index < o.length → o.length < index + count →
        (o.read index count).1 = o.length - index
        ∧ (o.len % o.elemSize = 0 →
            (o.read index count).2
              = readBytes o.byteAt (index * o.elemSize)
                  ((o.length - index) * o.elemSize))) := by
  have hdm : o.len / o.elemSize * o.elemSize + o.len % o.elemSize = o.len :=
    Nat.div_add_mod' o.len o.elemSize
  have hmod : o.len % o.elemSize < o.elemSize := Nat.mod_lt o.len hs
  refine ⟨rfl, ?_, ?_⟩
  · intro hge
    have h1 : o.length * o.elemSize ≤ index * o.elemSize :=
      Nat.mul_le_mul_right _ hge
    unfold Object.length Object.baseLength at h1
    unfold Object.read Object.baseRead Object.baseLength
    by_cases hoff : o.len ≤ index * o.elemSize
    · simp [hoff]
    · simp only [ge_iff_le, hoff, if_false]
      apply Nat.div_eq_of_lt
      have hmin := Nat.min_le_left (o.len - index * o.elemSize) (count * o.elemSize)
      omega
  · intro hlt hcnt
    have hoff : index * o.elemSize < o.len := by
      have h1 : (index + 1) * o.elemSize ≤ o.length * o.elemSize :=
        Nat.mul_le_mul_right _ hlt
      have h2 : o.len / o.elemSize * o.elemSize ≤ o.len :=
        Nat.div_mul_le_self o.len o.elemSize
      have h3 : (index + 1) * o.elemSize = index * o.elemSize + o.elemSize :=
        Nat.succ_mul index o.elemSize
      unfold Object.length Object.baseLength at h1
      omega
    have hkey : o.len - index * o.elemSize
        = (o.length - index) * o.elemSize + o.len % o.elemSize := by
      have h4 : (o.length - index) * o.elemSize
          = o.length * o.elemSize - index * o.elemSize :=
        Nat.sub_mul o.length index o.elemSize
      have h5 : index * o.elemSize ≤ o.length * o.elemSize :=
        Nat.mul_le_mul_right _ (Nat.le_of_lt hlt)
      unfold Object.length Object.baseLength at h4 h5 ⊢
      omega
    have hcs : (o.length - index) * o.elemSize + o.len % o.elemSize
        ≤ count * o.elemSize := by
      have h1 : o.length - index + 1 ≤ count := by omega
      have h2 : (o.length - index + 1) * o.elemSize ≤ count * o.elemSize :=
        Nat.mul_le_mul_right _ h1
      have h3 : (o.length - index + 1) * o.elemSize
          = (o.length - index) * o.elemSize + o.elemSize :=
        Nat.succ_mul (o.length - index) o.elemSize
      omega
    have hminval : min (o.len - index * o.elemSize) (count * o.elemSize)
        = (o.length - index) * o.elemSize + o.len % o.elemSize := by
      rw [hkey]
      exact Nat.min_eq_left hcs
    constructor
    · unfold Object.read Object.baseRead Object.baseLength
      simp only [ge_iff_le, Nat.not_le_of_lt hoff, if_false]
      rw [hminval, Nat.add_comm, Nat.add_mul_div_right _ _ hs,
        Nat.div_eq_of_lt hmod, Nat.zero_add]
    · intro hr0
      unfold Object.read Object.baseRead Object.baseLength
      simp only [ge_iff_le, Nat.not_le_of_lt hoff, if_false]
      rw [hminval, hr0, Nat.add_zero]

/-- Witness for C6 at the example sequence: `read(3, buf, 10)` returns 2. -/
theorem object_read_spec_witness :
    0 < objA.elemSize ∧ (objA.read 3 10).1 = objA.length - 3 :=
  ⟨by decide, ((object_read_spec objA (by decide) 3 10).2.2 (by decide)
    (by decide)).1⟩

/-- C9: `begin()` and `end()` construct iterators referencing this sequence
at positions 0 and `length()` respectively, two iterators compare equal iff
they reference the same sequence and the same position, and for every
sequence of length 0, `begin() == end()`. -/
theorem begin_end_spec (o : Object) (a b : ObjectIterator) :
    o.begin.seqId = o.id ∧ o.begin.pos = 0
    ∧ o.end_.seqId = o.id ∧ o.end_.pos = o.length
    ∧ (ObjectIterator.eq a b = true ↔ (a.seqId = b.seqId ∧ a.pos = b.pos))
    ∧ (o.length = 0 → ObjectIterator.eq o.begin o.end_ = true) := by
  refine ⟨rfl, rfl, rfl, rfl, ?_, ?_⟩
  · unfold ObjectIterator.eq
    simp
  · intro h0
    unfold ObjectIterator.eq Object.begin Object.end_
    simp [h0]

/-- Witness for the amended C4 at the corrupt handle of `envA`. -/
theorem resolution_fallback_amended_witness :
    ObjectBase.getObjectPtr envA BuildMode.release 300 = some envA.emptyAddr
    ∧ ObjectBase.getObjectPtr envA BuildMode.debug 300 = none
    ∧ ObjectBase.getObjectPtr envA BuildMode.host 300 = some 300 :=
  resolution_fallback_amended envA 300 (by decide) (by decide) (by decide)

end FSTR

/-- C10 counterexample: at `flashLength = 4294967294`, `length() + 1` does not
overflow 32 bits, yet `size()` computes `ALIGNUP(4294967295) = 0` in 32-bit
arithmetic, which is not the smallest multiple of 4 at least `length() + 1`
and leaves no room for the data plus a NUL terminator. -/
theorem size_counterexample :
    (4294967294 : Nat) + 1 < FSTR.U32
    ∧ FlashString.size 4294967294 = 0
    ∧ ¬((4294967294 : Nat) + 1 ≤ FlashString.size 4294967294) := by
  exact ⟨by decide, by decide, by decide⟩

/-- C10 amended: whenever `length() + 4` does not overflow 32 bits (so for
every `flashLength ≤ 2^32 - 5`), `size()` is the smallest multiple of 4 that
is at least `length() + 1`; in particular a buffer of `size()` bytes has room
for the `length()` data bytes plus a NUL terminator at index `length()`, as
`LOAD_FSTR` relies on. -/
theorem size_amended (fl : Nat) (hfl : fl + 4 < FSTR.U32) :
    FlashString.size fl % 4 = 0
    ∧ fl + 1 ≤ FlashString.size fl
    ∧ FlashString.size fl < fl + 1 + 4 := by
  have h32 : FSTR.U32 = 4294967296 := by norm_num [FSTR.U32]
  unfold FlashString.size FSTR.ALIGNUP
  rw [h32] at hfl ⊢
  omega

/-- Witness for the amended C10 at `flashLength = 21`: `size()` is 24. -/
theorem size_amended_witness :
    (21 : Nat) + 4 < FSTR.U32
    ∧ (FlashString.size 21 % 4 = 0
       ∧ 21 + 1 ≤ FlashString.size 21
       ∧ FlashString.size 21 < 21 + 1 + 4) :=
  ⟨by decide, size_amended 21 (by decide)⟩
